import Mathlib

/-!
Shallow embedding of the sw360-dashboard exporter (Python) and proofs about it.

Source files embedded:
  * `src/sw360_dashboard/aws_cloudwatch_utils.py` — volume reconciliation
    (`get_size_gb`, `find_closest_volume`) and the EC2/EBS metric-collection
    loops with their seen-ID deduplication sets;
  * `src/sw360_dashboard/couchdb_utils.py` — the `backoff.on_exception`
    retry combinator and its giveup classifiers, `fetch_results`,
    `create_new_view_in_db`, `save_new_view`, `push_metrics`,
    `format_for_time_series`;
  * `src/sw360_dashboard/couchdb_common_metrics.py` — the most-used-component
    aggregation and its sort;
  * `src/sw360_dashboard/collect_components_releases_projects_data.py` —
    `count_projects_per_release` and `organize_data`.

Modelling conventions: Python floats are modelled as `ℚ` (the claims never
depend on rounding), Python exceptions as `Except`, Python `None` as
`Option.none`, Python dicts as insertion-ordered association lists with
first-key lookup and in-place update (which is exactly CPython's observable
dict behaviour), and Python's stable `sort`/`sorted` as a stable insertion
sort with a Boolean "comes-no-later-than" comparator (any two stable sorts
by the same key agree pointwise, so this is observationally the same
function). External library calls (CloudWatch queries, the Cloudant client,
`datetime.strptime`) enter as function parameters; a concrete model of
`strptime(%Y-%m-%d)` is provided for evaluating examples. Wall-clock time
(`max_time`, sleeps) is not modelled: the retry bound modelled is the
attempt count.
-/

namespace Sw360

/-! ## Python primitives -/

/-- Python values as they occur in the rows/documents the embedded code
reads: `None`, strings, integers. -/
inductive PyVal where
  | noneV : PyVal
  | strV : String → PyVal
  | intV : Int → PyVal
deriving DecidableEq

/-- Python truthiness for `PyVal` (`if x:`): `None`, `""` and `0` are falsy. -/
def PyVal.truthy : PyVal → Bool
  | PyVal.noneV => false
  | PyVal.strV s => !(s == "")
  | PyVal.intV n => !(n == 0)

/-- Python `d[k]` lookup on an insertion-ordered dict modelled as an
association list: the first (hence only) binding of `k`. -/
def dictGet {V : Type} : List (String × V) → String → Option V
  | [], _ => Option.none
  | p :: rest, k => if p.1 == k then Option.some p.2 else dictGet rest k

/-- Python `d[k] = v` on a dict modelled as an association list: replace the
binding in place when `k` is present, else append a new binding at the end
(CPython keeps insertion order). -/
def dictInsert {V : Type} : List (String × V) → String → V → List (String × V)
  | [], k, v => [(k, v)]
  | p :: rest, k, v => if p.1 == k then (k, v) :: rest else p :: dictInsert rest k v

/-- Python's `<` on single characters: comparison of code points. -/
def pyCharLt (a b : Char) : Bool := a.val < b.val

/-- Python's lexicographic `<` on strings, over their character lists. -/
def pyStrLtList : List Char → List Char → Bool
  | _, [] => false
  | [], _ :: _ => true
  | a :: as, b :: bs => pyCharLt a b || (a == b && pyStrLtList as bs)

/-- Python's lexicographic `<` on strings. -/
def pyStrLt (s t : String) : Bool := pyStrLtList s.toList t.toList

/-- Helper for substring containment: does `pat` occur inside the list? -/
def listContainsSub (pat : List Char) : List Char → Bool
  | [] => List.isPrefixOf pat []
  | c :: rest => List.isPrefixOf pat (c :: rest) || listContainsSub pat rest

/-- Python's `pat in s` substring test. -/
def pyStrContains (s pat : String) : Bool := listContainsSub pat.toList s.toList

/-- Stable ordered insertion: place `a` before the first element `b` with
`r a b = true`.  With a reflexive-on-ties total comparator this yields
exactly Python's stable sort order. -/
def orderedInsertB {α : Type} (r : α → α → Bool) (a : α) : List α → List α
  | [] => [a]
  | b :: l => if r a b then a :: b :: l else b :: orderedInsertB r a l

/-- Stable insertion sort, the model of Python's `sorted`/`list.sort`:
stable sorts by the same key are pointwise equal, so insertion sort is an
exact model of Timsort's output. -/
def insertionSortB {α : Type} (r : α → α → Bool) : List α → List α
  | [] => []
  | a :: l => orderedInsertB r a (insertionSortB r l)

/-! ## aws_cloudwatch_utils.py — volume reconciliation -/

/-- A volume as returned inside `describe_volumes` (`vol` in
`find_closest_volume`): `Size` is an integer number of GB. -/
structure Volume where
  volumeId : String
  size : Int
  volumeType : String
  state : String
deriving DecidableEq

/-- `get_size_gb(size_bytes)`: `size_bytes / (1024 * 1024 * 1024)`. -/
def get_size_gb (size_bytes : Int) : ℚ := (size_bytes : ℚ) / (1024 * 1024 * 1024)

/-- One iteration of the loop body of `find_closest_volume`: the tracked
state is `closest_vol` with its `closest_diff` (absent = `None`/`inf`,
where `diff = vol['Size'] - volume_size`). The update fires exactly when
`0 <= diff < closest_diff`. -/
def fcvStep (volume_size : ℚ) (acc : Option (Volume × ℚ)) (vol : Volume) : Option (Volume × ℚ) :=
  match acc with
  | Option.none =>
    if 0 ≤ (vol.size : ℚ) - volume_size then
      Option.some (vol, (vol.size : ℚ) - volume_size)
    else Option.none
  | Option.some (v₀, d₀) =>
    if 0 ≤ (vol.size : ℚ) - volume_size ∧ (vol.size : ℚ) - volume_size < d₀ then
      Option.some (vol, (vol.size : ℚ) - volume_size)
    else Option.some (v₀, d₀)

/-- `find_closest_volume(volume_size, volumes_response)` of
`aws_cloudwatch_utils.py`: scan all volumes, keep the one with the smallest
non-negative `Size - volume_size`, `None` when no volume qualifies. -/
def find_closest_volume (volume_size : ℚ) (volumes : List Volume) : Option Volume :=
  (volumes.foldl (fcvStep volume_size) Option.none).map (fun p => p.1)

/-! ## aws_cloudwatch_utils.py — metric collection loops

The Prometheus gauges are modelled as an event log: every `gauge.labels(...)
.set(value)` appends one `GaugeSet` event tagged with the gauge's kind and
the id (instance id or volume id) it is set for.  CloudWatch lookups enter
as a function `cw namespace metricName dimensionValue statistic`. -/

/-- The gauges the two collection loops set. -/
inductive GaugeKind where
  | runningInstances | cpu | mem | netIn | netOut
  | volSize | volUsed | volFree | volUtil
  | volIops | volReadOps | volWriteOps
deriving DecidableEq

/-- One `gauge.labels(...).set(value)` call: which gauge, for which
instance/volume id, with what sample value. -/
structure GaugeSet where
  kind : GaugeKind
  entity : String
  value : ℚ
deriving DecidableEq

/-- How many times gauge `k` was set for id `ent` in an event log. -/
def countOf (k : GaugeKind) (ent : String) (events : List GaugeSet) : Nat :=
  events.countP (fun e => decide (e.kind = k ∧ e.entity = ent))

/-- Turn a list of `(gauge, optional value)` pairs for one entity into the
events actually emitted: a gauge is set exactly when its value is present
(`if metric is not None: gauge.labels(...).set(metric)`). -/
def gatherEvents (ent : String) : List (GaugeKind × Option ℚ) → List GaugeSet
  | [] => []
  | (_, Option.none) :: rest => gatherEvents ent rest
  | (k, Option.some v) :: rest => ⟨k, ent, v⟩ :: gatherEvents ent rest

/-- An EC2 instance record as built by `get_running_instances`. -/
structure Ec2Instance where
  instanceId : String
  instanceType : String
  availabilityZone : String
  tags : List (String × String)
deriving DecidableEq

/-- The per-instance body of `collect_ec2_instance_metrics`: query four
CloudWatch metrics for the instance and set each gauge that has a value. -/
def ec2_instance_events (cw : String → String → String → String → Option ℚ)
    (inst : Ec2Instance) : List GaugeSet :=
  gatherEvents inst.instanceId
    [(GaugeKind.cpu, cw "AWS/EC2" "CPUUtilization" inst.instanceId "Average"),
     (GaugeKind.mem, cw "CWAgent" "mem_used_percent" inst.instanceId "Average"),
     (GaugeKind.netIn, cw "AWS/EC2" "NetworkIn" inst.instanceId "Average"),
     (GaugeKind.netOut, cw "AWS/EC2" "NetworkOut" inst.instanceId "Average")]

/-- The shared shape of the three seen-ID-guarded loops in
`aws_cloudwatch_utils.py` (`processed_instances` / `processed_volumes`):
skip an element whose key is already in the seen set, otherwise add the key
and emit the element's events. -/
def guardedLoop {α : Type} (key : α → String) (ev : α → List GaugeSet) :
    List α → List String → List GaugeSet → List String × List GaugeSet
  | [], processed, events => (processed, events)
  | a :: rest, processed, events =>
    if key a ∈ processed then guardedLoop key ev rest processed events
    else guardedLoop key ev rest (key a :: processed) (events ++ ev a)

/-- `collect_ec2_instance_metrics`: set the running-instances count gauge to
`len(instances)` (duplicates included), then walk the instance list behind
the `processed_instances` seen set. -/
def collect_ec2_instance_metrics (cw : String → String → String → String → Option ℚ)
    (instances : List Ec2Instance) : List String × List GaugeSet :=
  guardedLoop (fun i => i.instanceId) (ec2_instance_events cw) instances []
    [⟨GaugeKind.runningInstances, "", (instances.length : ℚ)⟩]

/-- A volume record from `get_ebs_volumes_for_instance` (already filtered to
`in-use`). -/
structure VolInfo where
  volumeId : String
  volumeType : String
  size : Int
deriving DecidableEq

/-- One device's entry of `get_enhanced_disk_metrics`'s result dict. -/
structure DiskM where
  volume_id : String
  volume_type : String
  volume_size : Int
  used_gb : ℚ
  free_gb : ℚ
  utilization_percent : ℚ
deriving DecidableEq

/-- The fallback branch's per-volume gauge writes in
`collect_ebs_volume_metrics`: size plus the 50%-estimate triple
(`estimated_used_gb = volume_size * 0.5`, `estimated_free_gb =
volume_size - estimated_used_gb`, utilization `50.0`). -/
def ebs_basic_events (v : VolInfo) : List GaugeSet :=
  gatherEvents v.volumeId
    [(GaugeKind.volSize, Option.some (v.size : ℚ)),
     (GaugeKind.volUsed, Option.some ((v.size : ℚ) * (1 / 2))),
     (GaugeKind.volFree, Option.some ((v.size : ℚ) - (v.size : ℚ) * (1 / 2))),
     (GaugeKind.volUtil, Option.some 50)]

/-- The enhanced branch's per-device gauge writes: size, used, free,
utilization from the reconciled disk metrics. -/
def ebs_enhanced_events (dm : DiskM) : List GaugeSet :=
  gatherEvents dm.volume_id
    [(GaugeKind.volSize, Option.some (dm.volume_size : ℚ)),
     (GaugeKind.volUsed, Option.some dm.used_gb),
     (GaugeKind.volFree, Option.some dm.free_gb),
     (GaugeKind.volUtil, Option.some dm.utilization_percent)]

/-- The additional per-volume EBS metrics (queue length, read ops, write
ops) collected after the enhanced branch — note this loop does NOT consult
`processed_volumes`. -/
def ebs_extra_events (cw : String → String → String → String → Option ℚ)
    (v : VolInfo) : List GaugeSet :=
  gatherEvents v.volumeId
    [(GaugeKind.volIops, cw "AWS/EBS" "VolumeQueueLength" v.volumeId "Average"),
     (GaugeKind.volReadOps, cw "AWS/EBS" "VolumeReadOps" v.volumeId "Sum"),
     (GaugeKind.volWriteOps, cw "AWS/EBS" "VolumeWriteOps" v.volumeId "Sum")]

/-- The unguarded `for volume in volumes:` loop collecting IOPS/read/write
gauges for every volume of the instance. -/
def ebs_extra_loop (cw : String → String → String → String → Option ℚ) :
    List VolInfo → List GaugeSet → List GaugeSet
  | [], events => events
  | v :: rest, events => ebs_extra_loop cw rest (events ++ ebs_extra_events cw v)

/-- The per-instance step of `collect_ebs_volume_metrics`: if
`get_enhanced_disk_metrics` found nothing, run the fallback loop over basic
volumes (guarded by `processed_volumes`) and `continue`; otherwise run the
enhanced loop (guarded) and then the additional-metrics loop (unguarded). -/
def collect_ebs_loop (enhanced : String → List (String × DiskM))
    (volumes : String → List VolInfo)
    (cw : String → String → String → String → Option ℚ) :
    List Ec2Instance → List String → List GaugeSet → List String × List GaugeSet
  | [], processed, events => (processed, events)
  | inst :: rest, processed, events =>
    let dd := enhanced inst.instanceId
    if dd.isEmpty then
      let st := guardedLoop (fun v => v.volumeId) ebs_basic_events
        (volumes inst.instanceId) processed events
      collect_ebs_loop enhanced volumes cw rest st.1 st.2
    else
      let st := guardedLoop (fun p => p.2.volume_id) (fun p => ebs_enhanced_events p.2)
        dd processed events
      collect_ebs_loop enhanced volumes cw rest st.1
        (ebs_extra_loop cw (volumes inst.instanceId) st.2)

/-- `collect_ebs_volume_metrics`, started with an empty seen set and log. -/
def collect_ebs_volume_metrics (enhanced : String → List (String × DiskM))
    (volumes : String → List VolInfo)
    (cw : String → String → String → String → Option ℚ)
    (instances : List Ec2Instance) : List String × List GaugeSet :=
  collect_ebs_loop enhanced volumes cw instances [] []

/-! ## couchdb_utils.py — retry combinator -/

/-- The exceptions the decorated operations raise: `ApiException` with a
status code and message, or `requests.exceptions.ChunkedEncodingError`. -/
inductive ApiErr where
  | api : Int → String → ApiErr
  | chunked : ApiErr
deriving DecidableEq

/-- `giveup_not_timeout_exception`: stop retrying unless the exception is an
`ApiException` whose message contains `'timeout'`. -/
def giveup_not_timeout_exception : ApiErr → Bool
  | ApiErr.api _ msg => !(pyStrContains msg "timeout")
  | ApiErr.chunked => true

/-- `giveup_not_indexing_exception`: stop retrying unless the exception is
an `ApiException` with status code 404 or 408. -/
def giveup_not_indexing_exception : ApiErr → Bool
  | ApiErr.api code _ => !(code == 404 || code == 408)
  | ApiErr.chunked => true

/-- `MAX_BACKOFF_RETRIES` of couchdb_utils.py. -/
def MAX_BACKOFF_RETRIES : Nat := 100

/-- `MAX_PUSH_GATEWAY_RETRIES` of couchdb_utils.py. -/
def MAX_PUSH_GATEWAY_RETRIES : Nat := 5

/-- The loop of `backoff.on_exception` (sync), with wall-clock time
abstracted away: attempt `t` runs `op t`; a success returns immediately; an
exception retries unless the classifier gives up or the attempt count has
reached `max_tries`, in which case the wrapper re-raises when
`raise_on_giveup` and otherwise swallows the exception and returns `None`.
`fuel` is the number of retries still allowed; the returned `Nat` counts
the attempts made. `Except.ok Option.none` is the silent-giveup `None`
return; `Except.error` models an exception propagating to the caller. -/
def backoffGo {E α : Type} (giveup : E → Bool) (raiseOnGiveup : Bool)
    (op : Nat → Except E α) : Nat → Nat → Nat × Except E (Option α)
  | t, 0 =>
    match op t with
    | Except.ok a => (t + 1, Except.ok (Option.some a))
    | Except.error e =>
      (t + 1, if raiseOnGiveup then Except.error e else Except.ok Option.none)
  | t, fuel + 1 =>
    match op t with
    | Except.ok a => (t + 1, Except.ok (Option.some a))
    | Except.error e =>
      if giveup e then
        (t + 1, if raiseOnGiveup then Except.error e else Except.ok Option.none)
      else backoffGo giveup raiseOnGiveup op (t + 1) fuel

/-- `backoff.on_exception(backoff.expo, …, max_tries, giveup,
raise_on_giveup)` applied to `op`. -/
def backoffRun {E α : Type} (maxTries : Nat) (giveup : E → Bool) (raiseOnGiveup : Bool)
    (op : Nat → Except E α) : Nat × Except E (Option α) :=
  backoffGo giveup raiseOnGiveup op 0 (maxTries - 1)

/-- One row of a view query result. -/
structure ViewRow where
  key : PyVal
  value : PyVal
deriving DecidableEq

/-- The body of `fetch_results`: call `post_view` (modelled per attempt);
a `None` response yields `[]`, otherwise the response's rows. -/
def fetch_results_body (post_view : Nat → Except ApiErr (Option (List ViewRow)))
    (t : Nat) : Except ApiErr (List ViewRow) :=
  match post_view t with
  | Except.error e => Except.error e
  | Except.ok Option.none => Except.ok []
  | Except.ok (Option.some rows) => Except.ok rows

/-- `fetch_results` with its decorator: `max_tries=MAX_BACKOFF_RETRIES`,
`giveup=giveup_not_timeout_exception`, `raise_on_giveup=False`. -/
def fetch_results (post_view : Nat → Except ApiErr (Option (List ViewRow))) :
    Nat × Except ApiErr (Option (List ViewRow)) :=
  backoffRun MAX_BACKOFF_RETRIES giveup_not_timeout_exception false
    (fetch_results_body post_view)

/-- The decorator of `wait_for_view_indexing`: `raise_on_giveup=False`,
retry only on 404/408. -/
def wait_for_view_indexing_retry (op : Nat → Except ApiErr Unit) :
    Nat × Except ApiErr (Option Unit) :=
  backoffRun MAX_BACKOFF_RETRIES giveup_not_indexing_exception false op

/-- The decorator of `push_metrics`: `max_tries=MAX_PUSH_GATEWAY_RETRIES`,
backoff's default classifier (never give up early) and — unlike the three
couchdb operations — backoff's default `raise_on_giveup=True`. -/
def push_metrics_retry (op : Nat → Except ApiErr Unit) :
    Nat × Except ApiErr (Option Unit) :=
  backoffRun MAX_PUSH_GATEWAY_RETRIES (fun _ => false) true op

/-! ## couchdb_utils.py — view provisioning -/

/-- A view's map/reduce pair (`DesignDocumentViewsMapReduce`); also the
shape of the `map_function` dict argument (`{'map': …, optional 'reduce'}`). -/
structure ViewDef where
  map : String
  reduce : Option String
deriving DecidableEq

/-- A design document: `_id`, `_rev` and its `views` dict. -/
structure DesignDoc where
  id : Option String
  rev : Option String
  views : List (String × ViewDef)
deriving DecidableEq

/-- `create_new_view_in_db` without its retry decorator, as a function from
the fetched state of the design document (`None` when `get_design_document`
raised) to the document handed to `put_design_document`: start from a views
dict holding only the new view, then copy every existing view in over it —
so an existing view named `view` overwrites the new definition. -/
def create_new_view_in_db (existing : Option DesignDoc) (view : String)
    (map_function : ViewDef) : DesignDoc :=
  match existing with
  | Option.some ex =>
    ⟨ex.id, ex.rev,
     ex.views.foldl (fun acc kv => dictInsert acc kv.1 kv.2) [(view, map_function)]⟩
  | Option.none => ⟨Option.none, Option.none, [(view, map_function)]⟩

/-- What one `save_new_view` call did: the design-document state after the
call, how many `put_design_document` writes succeeded, and the flags the
function computes (`design_exists`, `view_created`) plus whether it reached
the sleep-and-`wait_for_view_indexing` step. -/
structure SaveResult where
  db : Option DesignDoc
  wrote : Nat
  design_exists : Bool
  view_created : Bool
  waited : Bool
deriving DecidableEq

/-- `save_new_view`: look the design document up (an exception leaves
`design_exists` false); when the view is already among its views, print and
do nothing further; otherwise create it — in dry-run mode as a no-op that
still counts as created — and, when created, wait for indexing.  `createOk`
abstracts whether the retried `create_new_view_in_db` call ultimately
succeeded (its decorator returns `None` after giving up, and a `None`
leaves `view_created` false). -/
def save_new_view (dry_run : Bool) (createOk : Bool) (db : Option DesignDoc)
    (view : String) (map_function : ViewDef) : SaveResult :=
  let design_exists :=
    match db with
    | Option.none => false
    | Option.some doc => (dictGet doc.views view).isSome
  if design_exists then ⟨db, 0, true, false, false⟩
  else if dry_run then ⟨db, 0, false, true, true⟩
  else if createOk then
    ⟨Option.some (create_new_view_in_db db view map_function), 1, false, true, true⟩
  else ⟨db, 0, false, false, false⟩

/-! ## couchdb_utils.py — format_for_time_series -/

/-- The Python exceptions `format_for_time_series` can let escape. -/
inductive PyError where
  | keyError : PyError
  | typeError : PyError
deriving DecidableEq

/-- The first loop of `format_for_time_series`, building `upd_result`:
`item[key_str]` raises `KeyError` when the field is absent; a falsy value
is skipped with a diagnostic; `strptime` on a non-string raises
`TypeError`; a `ValueError` from parsing skips the row; a parsed year is
kept (paired with `item[value_str]`, whose absence also raises `KeyError`)
subject to the `year > 2015` filter when `year_filter` is set. -/
def ffts_collect (strptime : String → Option Nat) (key_str value_str : String)
    (year_filter : Bool) : List (List (String × PyVal)) → Except PyError (List (Nat × PyVal))
  | [] => Except.ok []
  | item :: rest =>
    match dictGet item key_str with
    | Option.none => Except.error PyError.keyError
    | Option.some dv =>
      if dv.truthy then
        match dv with
        | PyVal.strV s =>
          match strptime s with
          | Option.some year =>
            if year_filter then
              if 2015 < year then
                match dictGet item value_str with
                | Option.none => Except.error PyError.keyError
                | Option.some v =>
                  (ffts_collect strptime key_str value_str year_filter rest).map
                    (fun l => (year, v) :: l)
              else ffts_collect strptime key_str value_str year_filter rest
            else
              match dictGet item value_str with
              | Option.none => Except.error PyError.keyError
              | Option.some v =>
                (ffts_collect strptime key_str value_str year_filter rest).map
                  (fun l => (year, v) :: l)
          | Option.none => ffts_collect strptime key_str value_str year_filter rest
        | _ => Except.error PyError.typeError
      else ffts_collect strptime key_str value_str year_filter rest

/-- One step of the grouping `defaultdict(list)` of
`format_for_time_series`, with only the eventual `len(values)` tracked. -/
def addYear (acc : List (Nat × Nat)) (y : Nat) : List (Nat × Nat) :=
  if acc.any (fun p => p.1 == y) then
    acc.map (fun p => if p.1 == y then (p.1, p.2 + 1) else p)
  else acc ++ [(y, 1)]

/-- `format_for_time_series(result, doc, key_str, value_str, year_filter)`:
collect `(year, value)` pairs then group them into per-year counts
(`[{"Year": y, doc: len(values)}]`, modelled as `(year, count)` pairs in
first-appearance order). `doc` only names the output column. The date
parser (`datetime.strptime` with `%Y-%m-%d`, reduced to the year) is a
parameter. -/
def format_for_time_series (strptime : String → Option Nat)
    (result : List (List (String × PyVal))) (doc key_str value_str : String)
    (year_filter : Bool) : Except PyError (List (Nat × Nat)) :=
  (ffts_collect strptime key_str value_str year_filter result).map
    (fun upd => upd.foldl (fun acc e => addYear acc e.1) [])

/-- Digits of a character list as a number; `none` when empty or non-digit. -/
def digitsVal (cs : List Char) : Option Nat :=
  if cs ≠ [] ∧ cs.all Char.isDigit then
    Option.some (cs.foldl (fun n c => n * 10 + (c.toNat - 48)) 0)
  else Option.none

/-- Gregorian leap-year test. -/
def isLeap (y : Nat) : Bool := (y % 4 == 0 && y % 100 != 0) || y % 400 == 0

/-- Days in a month. -/
def daysInMonth (y m : Nat) : Nat :=
  if m == 2 then (if isLeap y then 29 else 28)
  else if m == 4 || m == 6 || m == 9 || m == 11 then 30
  else 31

/-- Split a character list on `-`. -/
def splitOnDash : List Char → List (List Char)
  | [] => [[]]
  | c :: rest =>
    match splitOnDash rest with
    | [] => []
    | g :: gs => if c = '-' then [] :: g :: gs else (c :: g) :: gs

/-- Modelled from the Python standard library (not repository code):
`datetime.strptime(s, "%Y-%m-%d").year` — `%Y` takes exactly four digits,
`%m`/`%d` one or two, with calendar validation and `MINYEAR = 1`; `none`
models the `ValueError` raised on any mismatch. -/
def pyStrptimeYear (s : String) : Option Nat :=
  match splitOnDash s.toList with
  | [ys, ms, ds] =>
    match digitsVal ys, digitsVal ms, digitsVal ds with
    | Option.some y, Option.some m, Option.some d =>
      if ys.length = 4 ∧ 1 ≤ y ∧ ms.length ≤ 2 ∧ 1 ≤ m ∧ m ≤ 12 ∧
          ds.length ≤ 2 ∧ 1 ≤ d ∧ d ≤ daysInMonth y m then
        Option.some y
      else Option.none
    | _, _, _ => Option.none
  | _ => Option.none

/-! ## couchdb_common_metrics.py — most used components -/

/-- One row of the `byReleaseIdAndComponent` view: `emit(doc.componentId,
doc.name)`. -/
structure RelRow where
  key : String
  value : String
deriving DecidableEq

/-- One entry of the `key_counts` dict:
`{"key": componentId, "Component name": name, "count": n}`. -/
structure CompAgg where
  key : String
  name : String
  count : Nat
deriving DecidableEq

/-- One iteration of the counting loop of `query_execution_most_used_comp`:
bump the count for a seen key, otherwise append a fresh entry (dict
insertion order). -/
def key_counts_step (key_counts : List CompAgg) (row : RelRow) : List CompAgg :=
  if key_counts.any (fun a => a.key == row.key) then
    key_counts.map (fun a =>
      if a.key == row.key then ⟨a.key, a.name, a.count + 1⟩ else a)
  else key_counts ++ [⟨row.key, row.value, 1⟩]

/-- The `key_counts` dict after the counting loop, in insertion order. -/
def key_counts (rows : List RelRow) : List CompAgg :=
  rows.foldl key_counts_step []

/-- The comparator of `sorted(result_list, key=lambda x: x["count"],
reverse=True)`: `x` comes no later than `y` iff its count is at least
`y`'s.  The sort key is the count alone — the name plays no part. -/
def byCountDesc (x y : CompAgg) : Bool := y.count ≤ x.count

/-- The ranking `query_execution_most_used_comp` emits: the `key_counts`
entries sorted by count descending, ties left in dict insertion order
(Python's sort is stable). -/
def query_execution_most_used_comp (rows : List RelRow) : List CompAgg :=
  insertionSortB byCountDesc (key_counts rows)

/-! ## collect_components_releases_projects_data.py -/

/-- A `component` document, with the optional fields the script reads. -/
structure ComponentDoc where
  id : String
  name : Option String
  componentType : Option String
  createdOn : Option String
  createdBy : Option String
deriving DecidableEq

/-- A `release` document. -/
structure ReleaseDoc where
  id : String
  componentId : Option String
  name : Option String
  version : Option String
  createdOn : Option String
  createdBy : Option String
deriving DecidableEq

/-- A `project` document: `_id` and `name` via `.get`, plus the keys of its
`releaseIdToUsage` dict (`none` = field absent; dict keys are unique). -/
structure ProjectDoc where
  id : Option String
  name : Option String
  releaseIdToUsage : Option (List String)
deriving DecidableEq

/-- One `{'project_id': …, 'project_name': …}` entry of
`release_project_names`. -/
structure ProjRef where
  project_id : Option String
  project_name : String
deriving DecidableEq

/-- Bump `release_project_count[rid]`. -/
def cppr_inc (cnt : String → Nat) (rid : String) : String → Nat :=
  fun r => if r = rid then cnt r + 1 else cnt r

/-- Append to `release_project_names[rid]`. -/
def cppr_addName (names : String → List ProjRef) (rid : String) (pr : ProjRef) :
    String → List ProjRef :=
  fun r => if r = rid then names r ++ [pr] else names r

/-- The per-project body of `count_projects_per_release`: when
`releaseIdToUsage` is present and non-empty (`if 'releaseIdToUsage' in
project and project['releaseIdToUsage']:`), bump the count and record the
project for each of its release ids. -/
def cppr_step (acc : (String → Nat) × (String → List ProjRef)) (p : ProjectDoc) :
    (String → Nat) × (String → List ProjRef) :=
  match p.releaseIdToUsage with
  | Option.none => acc
  | Option.some keys =>
    if keys.isEmpty then acc
    else keys.foldl (fun a rid =>
      (cppr_inc a.1 rid, cppr_addName a.2 rid ⟨p.id, p.name.getD "Unknown"⟩)) acc

/-- `count_projects_per_release(projects)`: fold `cppr_step` over the
projects.  Returns the pair `(release_project_count,
release_project_names)` as (default-zero / default-empty) maps. -/
def count_projects_per_release (projects : List ProjectDoc) :
    (String → Nat) × (String → List ProjRef) :=
  projects.foldl cppr_step ((fun _ => 0), (fun _ => []))

/-- One release's entry in a component's report. -/
structure ReleaseData where
  release_id : String
  release_name : String
  release_version : String
  release_created_on : String
  release_created_by : String
  project_count : Nat
  projects : List ProjRef
deriving DecidableEq

/-- One component's entry in the final report. -/
structure ComponentData where
  component_id : String
  component_name : String
  component_type : String
  component_created_on : String
  component_created_by : String
  total_releases : Nat
  releases : List ReleaseData
deriving DecidableEq

/-- The comparator of `releases.sort(key=lambda x: (-x['project_count'],
x['release_name']))`: larger count first, ties by name ascending, equal
keys stable. -/
def releaseOrder (x y : ReleaseData) : Bool :=
  (decide (y.project_count < x.project_count)) ||
    (x.project_count == y.project_count && !(pyStrLt y.release_name x.release_name))

/-- The comparator of `result.sort(key=lambda x: (-x['total_releases'],
x['component_name']))`. -/
def componentOrder (x y : ComponentData) : Bool :=
  (decide (y.total_releases < x.total_releases)) ||
    (x.total_releases == y.total_releases && !(pyStrLt y.component_name x.component_name))

/-- `component_releases[k].append(r)` on the grouping `defaultdict(list)`. -/
def groupAppend (g : List (String × List ReleaseDoc)) (k : String) (r : ReleaseDoc) :
    List (String × List ReleaseDoc) :=
  match dictGet g k with
  | Option.some l => dictInsert g k (l ++ [r])
  | Option.none => g ++ [(k, [r])]

/-- The grouping loop of `organize_data`: a release goes to its component's
list when `component_id` is truthy and in `component_lookup`, otherwise to
`orphaned_releases`. -/
def splitReleases (component_lookup : List (String × ComponentDoc))
    (releases : List ReleaseDoc) :
    List (String × List ReleaseDoc) × List ReleaseDoc :=
  releases.foldl (fun acc rel =>
    match rel.componentId with
    | Option.some cid =>
      if cid ≠ "" ∧ (dictGet component_lookup cid).isSome then
        (groupAppend acc.1 cid rel, acc.2)
      else (acc.1, acc.2 ++ [rel])
    | Option.none => (acc.1, acc.2 ++ [rel])) ([], [])

/-- The `release_data` record built for one release. -/
def release_data_of (release_project_count : String → Nat)
    (release_project_names : String → List ProjRef) (rel : ReleaseDoc) : ReleaseData :=
  ⟨rel.id, rel.name.getD "Unknown", rel.version.getD "Unknown",
   rel.createdOn.getD "", rel.createdBy.getD "",
   release_project_count rel.id, release_project_names rel.id⟩

/-- The `component_data` record built for one component: its grouped
releases, each expanded and sorted by `releaseOrder`. -/
def component_data_of (groups : List (String × List ReleaseDoc))
    (release_project_count : String → Nat)
    (release_project_names : String → List ProjRef) (comp : ComponentDoc) : ComponentData :=
  let rels := (dictGet groups comp.id).getD []
  ⟨comp.id, comp.name.getD "Unknown", comp.componentType.getD "Unknown",
   comp.createdOn.getD "", comp.createdBy.getD "", rels.length,
   insertionSortB releaseOrder
     (rels.map (release_data_of release_project_count release_project_names))⟩

/-- `organize_data(components, releases, release_project_count,
release_project_names, release_to_component)` — the last parameter is
accepted but, as in the source, never read.  Returns the sorted per-component
report and the orphaned releases. -/
def organize_data (components : List ComponentDoc) (releases : List ReleaseDoc)
    (release_project_count : String → Nat)
    (release_project_names : String → List ProjRef)
    (release_to_component : List (String × String)) :
    List ComponentData × List ReleaseDoc :=
  let component_lookup := components.foldl (fun acc c => dictInsert acc c.id c) []
  let gs := splitReleases component_lookup releases
  let result := components.map
    (component_data_of gs.1 release_project_count release_project_names)
  (insertionSortB componentOrder result, gs.2)

/-! ## Concrete scenario inputs used by the example theorems -/

/-- C8 scenario: components `[C1, C2]`. -/
def c8_components : List ComponentDoc :=
  [⟨"C1", Option.some "C1", Option.none, Option.none, Option.none⟩,
   ⟨"C2", Option.some "C2", Option.none, Option.none, Option.none⟩]

/-- C8 scenario: releases `R1 → C1`, `R2 → C1`, and `R3` whose
`componentId` is absent from the component lookup. -/
def c8_releases : List ReleaseDoc :=
  [⟨"R1", Option.some "C1", Option.some "R1", Option.some "1.0", Option.none, Option.none⟩,
   ⟨"R2", Option.some "C1", Option.some "R2", Option.some "1.0", Option.none, Option.none⟩,
   ⟨"R3", Option.some "CX", Option.some "R3", Option.some "1.0", Option.none, Option.none⟩]

/-- C8 scenario: three projects using `R1`, `R1` and `R2`. -/
def c8_projects : List ProjectDoc :=
  [⟨Option.some "P1", Option.some "P1", Option.some ["R1"]⟩,
   ⟨Option.some "P2", Option.some "P2", Option.some ["R1"]⟩,
   ⟨Option.some "P3", Option.some "P3", Option.some ["R2"]⟩]

/-- The C8 scenario pipeline: counts from `count_projects_per_release`
fed into `organize_data`. -/
def c8_report : List ComponentData × List ReleaseDoc :=
  organize_data c8_components c8_releases
    (count_projects_per_release c8_projects).1
    (count_projects_per_release c8_projects).2 []

/-- C9 counterexample environment: instance `i-1` listed twice. -/
def c9_instances : List Ec2Instance :=
  [⟨"i-1", "t3.large", "eu-central-1a", []⟩,
   ⟨"i-1", "t3.large", "eu-central-1a", []⟩]

/-- C9 counterexample environment: enhanced disk metrics map device `xvdf`
of `i-1` to volume `vol-1`. -/
def c9_enhanced (iid : String) : List (String × DiskM) :=
  if iid = "i-1" then [("xvdf", ⟨"vol-1", "gp2", 100, 40, 60, 40⟩)] else []

/-- C9 counterexample environment: `i-1` has the single volume `vol-1`. -/
def c9_volumes (iid : String) : List VolInfo :=
  if iid = "i-1" then [⟨"vol-1", "gp2", 100⟩] else []

/-- C9 counterexample environment: every CloudWatch metric is available. -/
def c9_cw (_ns _metric _dim _stat : String) : Option ℚ := Option.some 1

/-- The event log the C9 counterexample run produces. -/
def c9_events : List GaugeSet :=
  (collect_ebs_volume_metrics c9_enhanced c9_volumes c9_cw c9_instances).2

/-- Proof-side measure: 1 while `ent` is outside the seen set, 0 once it
has been added (used to state the deduplication invariant). -/
def notSeen (ent : String) (p : List String) : Nat := if ent ∈ p then 0 else 1

/-! ## Theorems -/

/-- Any entry `fcvStep` produces is well-formed (non-negative diff that is
its volume's size minus the sample size) and is either the scanned volume
or the incoming accumulator. -/
lemma fcvStep_wf (s : ℚ) (acc : Option (Volume × ℚ)) (a : Volume)
    (hacc : ∀ v d, acc = Option.some (v, d) → 0 ≤ d ∧ d = (v.size : ℚ) - s) :
    ∀ v d, fcvStep s acc a = Option.some (v, d) →
      (0 ≤ d ∧ d = (v.size : ℚ) - s) ∧
        ((v, d) = (a, (a.size : ℚ) - s) ∨ acc = Option.some (v, d)) := by
  intro v d h
  cases acc with
  | none =>
    simp only [fcvStep] at h
    by_cases h0 : (0 : ℚ) ≤ (a.size : ℚ) - s
    · rw [if_pos h0] at h
      simp only [Option.some.injEq, Prod.mk.injEq] at h
      obtain ⟨rfl, rfl⟩ := h
      exact ⟨⟨h0, rfl⟩, Or.inl rfl⟩
    · rw [if_neg h0] at h
      cases h
  | some pr =>
    obtain ⟨v₀, d₀⟩ := pr
    simp only [fcvStep] at h
    by_cases hc : 0 ≤ (a.size : ℚ) - s ∧ (a.size : ℚ) - s < d₀
    · rw [if_pos hc] at h
      simp only [Option.some.injEq, Prod.mk.injEq] at h
      obtain ⟨rfl, rfl⟩ := h
      exact ⟨⟨hc.1, rfl⟩, Or.inl rfl⟩
    · rw [if_neg hc] at h
      simp only [Option.some.injEq, Prod.mk.injEq] at h
      obtain ⟨rfl, rfl⟩ := h
      exact ⟨hacc v₀ d₀ rfl, Or.inr rfl⟩

/-- When the scanned volume has a non-negative diff, the accumulator after
`fcvStep` is some entry whose diff is at most that volume's diff. -/
lemma fcvStep_min (s : ℚ) (acc : Option (Volume × ℚ)) (a : Volume)
    (h0 : 0 ≤ (a.size : ℚ) - s) :
    ∃ v d, fcvStep s acc a = Option.some (v, d) ∧ d ≤ (a.size : ℚ) - s := by
  cases acc with
  | none =>
    refine ⟨a, (a.size : ℚ) - s, ?_, le_refl _⟩
    simp only [fcvStep, if_pos h0]
  | some pr =>
    obtain ⟨v₀, d₀⟩ := pr
    by_cases hc : 0 ≤ (a.size : ℚ) - s ∧ (a.size : ℚ) - s < d₀
    · exact ⟨a, (a.size : ℚ) - s, by simp only [fcvStep, if_pos hc], le_refl _⟩
    · refine ⟨v₀, d₀, by simp only [fcvStep, if_neg hc], ?_⟩
      rcases not_and_or.mp hc with h | h
      · exact absurd h0 h
      · exact le_of_not_lt h

/-- `fcvStep` never increases the tracked diff. -/
lemma fcvStep_mono (s : ℚ) (acc : Option (Volume × ℚ)) (a : Volume)
    (v₀ : Volume) (d₀ : ℚ) (h : acc = Option.some (v₀, d₀)) :
    ∃ v d, fcvStep s acc a = Option.some (v, d) ∧ d ≤ d₀ := by
  subst h
  by_cases hc : 0 ≤ (a.size : ℚ) - s ∧ (a.size : ℚ) - s < d₀
  · exact ⟨a, (a.size : ℚ) - s, by simp only [fcvStep, if_pos hc], le_of_lt hc.2⟩
  · exact ⟨v₀, d₀, by simp only [fcvStep, if_neg hc], le_refl _⟩

/-- Full specification of the scanning loop of `find_closest_volume`: a
produced entry is well-formed and comes from the list or the initial
accumulator; every qualifying volume bounds the final diff; the final diff
never exceeds the initial one. -/
lemma fcv_foldl_spec (s : ℚ) :
    ∀ (vols : List Volume) (acc : Option (Volume × ℚ)),
      (∀ v d, acc = Option.some (v, d) → 0 ≤ d ∧ d = (v.size : ℚ) - s) →
      (∀ v d, vols.foldl (fcvStep s) acc = Option.some (v, d) →
          (0 ≤ d ∧ d = (v.size : ℚ) - s) ∧ (v ∈ vols ∨ acc = Option.some (v, d))) ∧
      (∀ w ∈ vols, 0 ≤ (w.size : ℚ) - s →
          ∃ v d, vols.foldl (fcvStep s) acc = Option.some (v, d) ∧ d ≤ (w.size : ℚ) - s) ∧
      (∀ v₀ d₀, acc = Option.some (v₀, d₀) →
          ∃ v d, vols.foldl (fcvStep s) acc = Option.some (v, d) ∧ d ≤ d₀)
  | [], acc, hacc => by
    refine ⟨?_, ?_, ?_⟩
    · intro v d h
      exact ⟨hacc v d h, Or.inr h⟩
    · intro w hw
      cases hw
    · intro v₀ d₀ h
      exact ⟨v₀, d₀, h, le_refl _⟩
  | a :: rest, acc, hacc => by
    have hstep := fcvStep_wf s acc a hacc
    have hstepwf : ∀ v d, fcvStep s acc a = Option.some (v, d) →
        0 ≤ d ∧ d = (v.size : ℚ) - s := fun v d h => (hstep v d h).1
    obtain ⟨ih1, ih2, ih3⟩ := fcv_foldl_spec s rest (fcvStep s acc a) hstepwf
    simp only [List.foldl_cons]
    refine ⟨?_, ?_, ?_⟩
    · intro v d h
      obtain ⟨hwf, horig⟩ := ih1 v d h
      refine ⟨hwf, ?_⟩
      rcases horig with hmem | hacc2
      · exact Or.inl (List.mem_cons_of_mem _ hmem)
      · rcases (hstep v d hacc2).2 with heq | hfrom
        · simp only [Prod.mk.injEq] at heq
          exact Or.inl (heq.1 ▸ List.mem_cons_self a rest)
        · exact Or.inr hfrom
    · intro w hw h0
      rcases List.mem_cons.mp hw with rfl | hmem
      · obtain ⟨v', d', hs, hle⟩ := fcvStep_min s acc w h0
        obtain ⟨v, d, hf, hle2⟩ := ih3 v' d' hs
        exact ⟨v, d, hf, le_trans hle2 hle⟩
      · exact ih2 w hmem h0
    · intro v₀ d₀ h
      obtain ⟨v', d', hs, hle⟩ := fcvStep_mono s acc a v₀ d₀ h
      obtain ⟨v, d, hf, hle2⟩ := ih3 v' d' hs
      exact ⟨v, d, hf, le_trans hle2 hle⟩

/-- C1.  `find_closest_volume` applied to a sample size (in GB, obtained
from bytes via `get_size_gb`, i.e. division by `2 ^ 30`) returns a volume
of the list whose size is at least the sample size and whose difference
`size - sample` is minimal among all volumes with `size ≥ sample`; it
returns `None` exactly when no volume has `size ≥ sample`; and on volumes
`[{A,100},{B,120}]` with sample size 105 it returns `B`, never `A`. -/
theorem C1_find_closest_volume_nonneg_min (s : ℚ) (vols : List Volume) :
    (∀ v, find_closest_volume s vols = Option.some v →
        v ∈ vols ∧ s ≤ (v.size : ℚ) ∧
          ∀ w ∈ vols, s ≤ (w.size : ℚ) →
            (v.size : ℚ) - s ≤ (w.size : ℚ) - s) ∧
    (find_closest_volume s vols = Option.none ↔ ∀ w ∈ vols, (w.size : ℚ) < s) ∧
    (∀ b : Int, get_size_gb b = (b : ℚ) / 2 ^ 30) ∧
    find_closest_volume 105
        [⟨"A", 100, "gp2", "in-use"⟩, ⟨"B", 120, "gp2", "in-use"⟩] =
      Option.some ⟨"B", 120, "gp2", "in-use"⟩ := by
  obtain ⟨h1, h2, _⟩ := fcv_foldl_spec s vols Option.none (by intro v d h; cases h)
  refine ⟨?_, ⟨?_, ?_⟩, ?_, ?_⟩
  · intro v hv
    obtain ⟨pr, hpr, hfst⟩ := Option.map_eq_some'.mp hv
    obtain ⟨v', d⟩ := pr
    simp only at hfst
    subst hfst
    obtain ⟨⟨hd0, hdeq⟩, hor⟩ := h1 v' d hpr
    have hmem : v' ∈ vols := by
      rcases hor with hm | habs
      · exact hm
      · cases habs
    refine ⟨hmem, ?_, ?_⟩
    · rw [hdeq] at hd0
      linarith
    · intro w hw hws
      obtain ⟨v'', d'', hf2, hle⟩ := h2 w hw (by linarith)
      rw [hpr] at hf2
      simp only [Option.some.injEq, Prod.mk.injEq] at hf2
      obtain ⟨hveq, hdeq2⟩ := hf2
      rw [← hdeq2, hdeq] at hle
      exact hle
  · intro hnone w hw
    by_contra hlt
    push_neg at hlt
    obtain ⟨v, d, hf, _⟩ := h2 w hw (by linarith)
    rw [Option.map_eq_none'.mp hnone] at hf
    cases hf
  · intro hall
    rcases hfold : vols.foldl (fcvStep s) Option.none with _ | pr
    · simp only [find_closest_volume, hfold, Option.map_none']
    · obtain ⟨v, d⟩ := pr
      obtain ⟨⟨hd0, hdeq⟩, hor⟩ := h1 v d hfold
      have hmem : v ∈ vols := by
        rcases hor with hm | habs
        · exact hm
        · cases habs
      have := hall v hmem
      rw [hdeq] at hd0
      linarith
  · intro b
    have : ((1024 : ℚ) * 1024 * 1024) = 2 ^ 30 := by norm_num
    rw [get_size_gb, this]
  · simp only [find_closest_volume, List.foldl_cons, List.foldl_nil, fcvStep]
    norm_num

/-- A backoff run with `raise_on_giveup=False` never lets an exception
escape: the wrapper's result is always an `ok` (a value or the silent
`None`). -/
lemma backoffGo_silent {E α : Type} (giveup : E → Bool) (op : Nat → Except E α) :
    ∀ (fuel t : Nat), ∃ r, (backoffGo giveup false op t fuel).2 = Except.ok r
  | 0, t => by
    cases hop : op t with
    | ok a => exact ⟨Option.some a, by simp [backoffGo, hop]⟩
    | error e => exact ⟨Option.none, by simp [backoffGo, hop]⟩
  | fuel + 1, t => by
    cases hop : op t with
    | ok a => exact ⟨Option.some a, by simp [backoffGo, hop]⟩
    | error e =>
      by_cases hg : giveup e = true
      · exact ⟨Option.none, by simp [backoffGo, hop, hg]⟩
      · obtain ⟨r, hr⟩ := backoffGo_silent giveup op fuel (t + 1)
        exact ⟨r, by simp only [backoffGo, hop, hg, if_false]; exact hr⟩

/-- When every attempt raises, a `raise_on_giveup=False` run ends in the
silent `None`, whatever the classifier decides. -/
lemma backoffGo_allfail_none {E α : Type} (giveup : E → Bool) (op : Nat → Except E α)
    (h : ∀ t a, op t ≠ Except.ok a) :
    ∀ (fuel t : Nat), (backoffGo giveup false op t fuel).2 = Except.ok Option.none
  | 0, t => by
    cases hop : op t with
    | ok a => exact absurd hop (h t a)
    | error e => simp [backoffGo, hop]
  | fuel + 1, t => by
    cases hop : op t with
    | ok a => exact absurd hop (h t a)
    | error e =>
      by_cases hg : giveup e = true
      · simp [backoffGo, hop, hg]
      · simp only [backoffGo, hop, hg, if_false]
        exact backoffGo_allfail_none giveup op h fuel (t + 1)

/-- With the default classifier (never give up early) and every attempt
raising, the run makes exactly `fuel + 1` further attempts and ends in the
silent `None`. -/
lemma backoffGo_allfail_attempts {E α : Type} (op : Nat → Except E α)
    (h : ∀ t a, op t ≠ Except.ok a) :
    ∀ (fuel t : Nat),
      backoffGo (fun _ => false) false op t fuel = (t + fuel + 1, Except.ok Option.none)
  | 0, t => by
    cases hop : op t with
    | ok a => exact absurd hop (h t a)
    | error e => simp [backoffGo, hop]
  | fuel + 1, t => by
    cases hop : op t with
    | ok a => exact absurd hop (h t a)
    | error e =>
      simp only [backoffGo, hop, Bool.false_eq_true, if_false]
      rw [backoffGo_allfail_attempts op h fuel (t + 1)]
      congr 1
      omega

/-- C2 (amended).  When every `post_view` attempt raises — in particular
once the retry policy is exhausted by a persistently failing view — the
decorated `fetch_results` neither raises nor returns rows: its
`raise_on_giveup=False` decorator swallows the final exception and hands
the caller Python `None` (not an empty list). -/
theorem C2_fetch_results_gives_up_with_none
    (post_view : Nat → Except ApiErr (Option (List ViewRow)))
    (h : ∀ t r, post_view t ≠ Except.ok r) :
    (fetch_results post_view).2 = Except.ok Option.none := by
  unfold fetch_results backoffRun
  apply backoffGo_allfail_none
  intro t a hbody
  unfold fetch_results_body at hbody
  cases hpv : post_view t with
  | error e => rw [hpv] at hbody; cases hbody
  | ok r => exact h t r hpv

/-- Witness for C2 at a concrete always-timeout backend. -/
theorem C2_fetch_results_gives_up_with_none_witness :
    (fetch_results (fun _ => Except.error (ApiErr.api 408 "timeout"))).2 =
      Except.ok Option.none :=
  C2_fetch_results_gives_up_with_none (fun _ => Except.error (ApiErr.api 408 "timeout"))
    (fun _ _ h => Except.noConfusion h)

/-- C2, counterexample to the claim as stated: after exhausting all 100
retries against an always-timeout backend, `fetch_results` returns `None`,
which is not the empty list of rows the claim promises. -/
theorem C2_exhausted_retries_not_empty_list :
    (fetch_results (fun _ => Except.error (ApiErr.api 408 "timeout"))).2 =
        Except.ok Option.none ∧
      (Except.ok Option.none : Except ApiErr (Option (List ViewRow))) ≠
        Except.ok (Option.some []) := by
  constructor
  · rfl
  · intro h
    simp at h

/-- C4 (amended).  A `raise_on_giveup=False` policy (document-store fetch,
view creation, indexing wait) never raises; with the default
never-give-up-early classifier and max 3 attempts it stops after exactly 3
attempts, returning the silent `None` — not the error object; the
metrics-gateway push decorator, which keeps backoff's default
`raise_on_giveup=True`, re-raises the last error after its 5 attempts. -/
theorem C4_retry_policy_bounds :
    (∀ (maxTries : Nat) (giveup : ApiErr → Bool) (op : Nat → Except ApiErr (List ViewRow)),
        ∃ r, (backoffRun maxTries giveup false op).2 = Except.ok r) ∧
    (∀ op : Nat → Except ApiErr (List ViewRow), (∀ t a, op t ≠ Except.ok a) →
        backoffRun 3 (fun _ => false) false op = (3, Except.ok Option.none)) ∧
    push_metrics_retry (fun _ => Except.error ApiErr.chunked) =
      (5, Except.error ApiErr.chunked) := by
  refine ⟨?_, ?_, ?_⟩
  · intro maxTries giveup op
    exact backoffGo_silent giveup op (maxTries - 1) 0
  · intro op h
    unfold backoffRun
    rw [backoffGo_allfail_attempts op h 2 0]
  · rfl

/-- C4, counterexample to the claim as stated: `push_metrics`' decorator
has no `raise_on_giveup=False`, so on a persistent
`ChunkedEncodingError` it raises the last error instead of giving up
silently. -/
theorem C4_push_metrics_raises :
    (push_metrics_retry (fun _ => Except.error ApiErr.chunked)).2 =
        Except.error ApiErr.chunked ∧
      (push_metrics_retry (fun _ => Except.error ApiErr.chunked)).2 ≠
        Except.ok Option.none := by
  constructor
  · rfl
  · intro h
    have h' : (Except.error ApiErr.chunked : Except ApiErr (Option Unit)) =
        Except.ok Option.none := h
    cases h'

/-- C3.  When a `save_new_view` call finds the view already present
(`design_exists`), it changes nothing and writes nothing, and an immediate
second call with the same arguments finds the view again, writes nothing,
and returns the identical result. -/
theorem C3_save_new_view_idempotent (dry_run createOk : Bool) (db : Option DesignDoc)
    (view : String) (map_function : ViewDef)
    (h : (save_new_view dry_run createOk db view map_function).design_exists = true) :
    (save_new_view dry_run createOk db view map_function).db = db ∧
    (save_new_view dry_run createOk db view map_function).wrote = 0 ∧
    save_new_view dry_run createOk
        ((save_new_view dry_run createOk db view map_function).db) view map_function =
      save_new_view dry_run createOk db view map_function := by
  cases db with
  | none =>
    by_cases hdr : dry_run <;> by_cases hco : createOk <;>
      simp [save_new_view, hdr, hco] at h
  | some doc =>
    cases hv : (dictGet doc.views view).isSome with
    | true => simp [save_new_view, hv]
    | false =>
      by_cases hdr : dry_run <;> by_cases hco : createOk <;>
        simp [save_new_view, hv, hdr, hco] at h

/-- Witness for C3 at a concrete design document that already holds the
view. -/
theorem C3_save_new_view_idempotent_witness :
    (save_new_view false true
          (Option.some ⟨Option.none, Option.none, [("all", ⟨"m0", Option.none⟩)]⟩)
          "all" ⟨"m1", Option.none⟩).db =
        Option.some ⟨Option.none, Option.none, [("all", ⟨"m0", Option.none⟩)]⟩ ∧
      (save_new_view false true
          (Option.some ⟨Option.none, Option.none, [("all", ⟨"m0", Option.none⟩)]⟩)
          "all" ⟨"m1", Option.none⟩).wrote = 0 ∧
      save_new_view false true
          ((save_new_view false true
              (Option.some ⟨Option.none, Option.none, [("all", ⟨"m0", Option.none⟩)]⟩)
              "all" ⟨"m1", Option.none⟩).db) "all" ⟨"m1", Option.none⟩ =
        save_new_view false true
          (Option.some ⟨Option.none, Option.none, [("all", ⟨"m0", Option.none⟩)]⟩)
          "all" ⟨"m1", Option.none⟩ :=
  C3_save_new_view_idempotent false true
    (Option.some ⟨Option.none, Option.none, [("all", ⟨"m0", Option.none⟩)]⟩)
    "all" ⟨"m1", Option.none⟩ (by decide)

/-- A successful dict lookup exhibits a member of the association list. -/
lemma dictGet_mem {V : Type} :
    ∀ (l : List (String × V)) (k : String) (v : V),
      dictGet l k = Option.some v → (k, v) ∈ l
  | [], k, v, h => by cases h
  | p :: rest, k, v, h => by
    cases hk : (p.1 == k) with
    | true =>
      rw [dictGet, if_pos hk] at h
      have hkey : p.1 = k := by simpa using hk
      have hval : p.2 = v := by simpa using h
      rw [← hkey, ← hval]
      exact List.mem_cons_self _ _
    | false =>
      rw [dictGet, if_neg (by simp [hk])] at h
      exact List.mem_cons_of_mem _ (dictGet_mem rest k v h)

/-- A failed dict lookup means the key is absent. -/
lemma dictGet_none_not_mem {V : Type} :
    ∀ (l : List (String × V)) (k : String),
      dictGet l k = Option.none → k ∉ l.map Prod.fst
  | [], k, _ => by simp
  | p :: rest, k, h => by
    cases hk : (p.1 == k) with
    | true => rw [dictGet, if_pos hk] at h; cases h
    | false =>
      rw [dictGet, if_neg (by simp [hk])] at h
      have hkey : ¬ p.1 = k := by simpa using hk
      simp only [List.map_cons, List.mem_cons]
      push_neg
      exact ⟨fun hc => hkey hc.symm, dictGet_none_not_mem rest k h⟩

/-- Looking up the key just inserted finds the inserted value. -/
lemma dictGet_dictInsert_self {V : Type} :
    ∀ (l : List (String × V)) (k : String) (v : V),
      dictGet (dictInsert l k v) k = Option.some v
  | [], k, v => by simp [dictInsert, dictGet]
  | p :: rest, k, v => by
    cases hk : (p.1 == k) with
    | true => simp [dictInsert, hk, dictGet]
    | false =>
      simp only [dictInsert, hk, Bool.false_eq_true, if_false, dictGet]
      exact dictGet_dictInsert_self rest k v

/-- Inserting one key leaves every other key's lookup unchanged. -/
lemma dictGet_dictInsert_ne {V : Type} :
    ∀ (l : List (String × V)) (k k' : String) (v : V), k' ≠ k →
      dictGet (dictInsert l k v) k' = dictGet l k'
  | [], k, k', v, h => by
    have hne : (k == k') = false := beq_eq_false_iff_ne.mpr (Ne.symm h)
    simp [dictInsert, dictGet, hne]
  | p :: rest, k, k', v, h => by
    have hne : (k == k') = false := beq_eq_false_iff_ne.mpr (Ne.symm h)
    cases hk : (p.1 == k) with
    | true =>
      have hkey : p.1 = k := by simpa using hk
      simp [dictInsert, hk, dictGet, hne, hkey]
    | false =>
      simp only [dictInsert, hk, Bool.false_eq_true, if_false]
      cases hp : (p.1 == k') with
      | true => simp [dictGet, hp]
      | false => simp [dictGet, hp, dictGet_dictInsert_ne rest k k' v h]

/-- Folding `dictInsert` over entries whose keys avoid `k` leaves `k`'s
lookup unchanged. -/
lemma foldl_dictInsert_not_mem {V : Type} :
    ∀ (l : List (String × V)) (acc : List (String × V)) (k : String),
      k ∉ l.map Prod.fst →
      dictGet (l.foldl (fun a p => dictInsert a p.1 p.2) acc) k = dictGet acc k
  | [], acc, k, _ => rfl
  | p :: rest, acc, k, h => by
    simp only [List.map_cons, List.mem_cons] at h
    push_neg at h
    rw [List.foldl_cons, foldl_dictInsert_not_mem rest _ k h.2,
      dictGet_dictInsert_ne acc p.1 k p.2 h.1]

/-- Folding `dictInsert` over an association list with distinct keys makes
each of its bindings win the final lookup. -/
lemma foldl_dictInsert_mem {V : Type} :
    ∀ (l : List (String × V)) (acc : List (String × V)) (k : String) (v : V),
      (l.map Prod.fst).Nodup → (k, v) ∈ l →
      dictGet (l.foldl (fun a p => dictInsert a p.1 p.2) acc) k = Option.some v
  | [], _, _, _, _, hmem => by cases hmem
  | p :: rest, acc, k, v, hnodup, hmem => by
    simp only [List.map_cons, List.nodup_cons] at hnodup
    rcases List.mem_cons.mp hmem with rfl | hmem'
    · rw [List.foldl_cons, foldl_dictInsert_not_mem rest _ k hnodup.1,
        dictGet_dictInsert_self]
    · rw [List.foldl_cons]
      exact foldl_dictInsert_mem rest _ k v hnodup.2 hmem'

/-- C7.  `create_new_view_in_db` writes back a design document in which
every view of the fetched document is still present with its previous
definition: the merge copies the existing views over the freshly added
one. -/
theorem C7_create_new_view_preserves_siblings (ex : DesignDoc) (view : String)
    (map_function : ViewDef) (k : String) (d : ViewDef)
    (hnodup : (ex.views.map Prod.fst).Nodup)
    (hk : dictGet ex.views k = Option.some d) :
    dictGet (create_new_view_in_db (Option.some ex) view map_function).views k =
      Option.some d := by
  simp only [create_new_view_in_db]
  exact foldl_dictInsert_mem ex.views _ k d hnodup (dictGet_mem ex.views k d hk)

/-- Witness for C7: a sibling view `sib` survives creating `new`. -/
theorem C7_create_new_view_preserves_siblings_witness :
    dictGet (create_new_view_in_db
        (Option.some ⟨Option.none, Option.none,
          [("old", ⟨"m0", Option.none⟩), ("sib", ⟨"m1", Option.none⟩)]⟩)
        "new" ⟨"m2", Option.none⟩).views "sib" = Option.some ⟨"m1", Option.none⟩ :=
  C7_create_new_view_preserves_siblings
    ⟨Option.none, Option.none, [("old", ⟨"m0", Option.none⟩), ("sib", ⟨"m1", Option.none⟩)]⟩
    "new" ⟨"m2", Option.none⟩ "sib" ⟨"m1", Option.none⟩ (by decide) (by decide)

/-- C10.  In `create_new_view_in_db`'s merge the existing entry named
`view` (when there is one) overwrites the newly supplied definition, which
therefore takes effect only when the name was absent. -/
theorem C10_existing_view_wins_merge (ex : DesignDoc) (view : String)
    (map_function : ViewDef)
    (hnodup : (ex.views.map Prod.fst).Nodup) :
    (∀ d, dictGet ex.views view = Option.some d →
        dictGet (create_new_view_in_db (Option.some ex) view map_function).views view =
          Option.some d) ∧
    (dictGet ex.views view = Option.none →
        dictGet (create_new_view_in_db (Option.some ex) view map_function).views view =
          Option.some map_function) := by
  constructor
  · intro d hd
    simp only [create_new_view_in_db]
    exact foldl_dictInsert_mem ex.views _ view d hnodup (dictGet_mem ex.views view d hd)
  · intro hnone
    simp only [create_new_view_in_db]
    rw [foldl_dictInsert_not_mem ex.views _ view (dictGet_none_not_mem ex.views view hnone)]
    simp [dictGet]

/-- Witness for C10 at a document already holding `v`. -/
theorem C10_existing_view_wins_merge_witness :
    (∀ d, dictGet ([("v", ⟨"m0", Option.none⟩)] :
          List (String × ViewDef)) "v" = Option.some d →
        dictGet (create_new_view_in_db
            (Option.some ⟨Option.none, Option.none, [("v", ⟨"m0", Option.none⟩)]⟩)
            "v" ⟨"m9", Option.none⟩).views "v" = Option.some d) ∧
    (dictGet ([("v", ⟨"m0", Option.none⟩)] : List (String × ViewDef)) "v" =
        Option.none →
      dictGet (create_new_view_in_db
          (Option.some ⟨Option.none, Option.none, [("v", ⟨"m0", Option.none⟩)]⟩)
          "v" ⟨"m9", Option.none⟩).views "v" = Option.some ⟨"m9", Option.none⟩) :=
  C10_existing_view_wins_merge
    ⟨Option.none, Option.none, [("v", ⟨"m0", Option.none⟩)]⟩ "v" ⟨"m9", Option.none⟩
    (by decide)

/-- Inserting before a list every element of which may follow `a` keeps `a`
in front (stability of ordered insertion on ties). -/
lemma orderedInsertB_of_head {α : Type} (r : α → α → Bool) (a : α) :
    ∀ l : List α, (∀ b ∈ l, r a b = true) → orderedInsertB r a l = a :: l
  | [], _ => rfl
  | b :: l, h => by
    rw [orderedInsertB, if_pos (h b (List.mem_cons_self b l))]

/-- A list on which the comparator always holds is left unchanged by the
stable insertion sort. -/
lemma insertionSortB_all {α : Type} (r : α → α → Bool) :
    ∀ l : List α, (∀ a ∈ l, ∀ b ∈ l, r a b = true) → insertionSortB r l = l
  | [], _ => rfl
  | a :: l, h => by
    rw [insertionSortB,
      insertionSortB_all r l (fun x hx y hy =>
        h x (List.mem_cons_of_mem a hx) y (List.mem_cons_of_mem a hy))]
    exact orderedInsertB_of_head r a l (fun b hb =>
      h a (List.mem_cons_self a l) b (List.mem_cons_of_mem a hb))

/-- C5 (amended).  The most-used-components ranking sorts by count only:
when all aggregated counts are equal the emitted order is the dict's
first-seen insertion order, unchanged by the sort; the `(-count, name)` key
used by `organize_data`'s rankings, by contrast, breaks the same tie
lexicographically by name (here `x` before `y` at equal counts 2). -/
theorem C5_tie_order_of_rankings :
    (∀ (rows : List RelRow) (c : Nat),
        (∀ a ∈ key_counts rows, a.count = c) →
        query_execution_most_used_comp rows = key_counts rows) ∧
    insertionSortB releaseOrder
        [⟨"R1", "y", "1.0", "", "", 2, []⟩, ⟨"R2", "x", "1.0", "", "", 2, []⟩] =
      [⟨"R2", "x", "1.0", "", "", 2, []⟩, ⟨"R1", "y", "1.0", "", "", 2, []⟩] := by
  constructor
  · intro rows c h
    unfold query_execution_most_used_comp
    apply insertionSortB_all
    intro a ha b hb
    simp [byCountDesc, h a ha, h b hb]
  · decide

/-- C5, counterexample to the claim as stated: feeding the release rows
`y, y, x, x` (counts `{y: 2, x: 2}`) to the most-used aggregation puts `y`
first — in first-seen order — even though `x` is lexicographically
smaller, so ties are NOT resolved lexicographically by name there. -/
theorem C5_most_used_ties_not_lexicographic :
    query_execution_most_used_comp
        [⟨"cy", "y"⟩, ⟨"cy", "y"⟩, ⟨"cx", "x"⟩, ⟨"cx", "x"⟩] =
      [⟨"cy", "y", 2⟩, ⟨"cx", "x", 2⟩] ∧
    pyStrLt "x" "y" = true := by
  decide

/-- C6.  Evaluation of `format_for_time_series`: a row missing its date
field makes the call raise `KeyError` (the code's own comment promises such
rows are skipped); rows whose present date is unparseable are dropped; the
example dates produce buckets `{2020: 1, 2021: 1}`; and with the year
filter on, a 2015 date is excluded. -/
theorem C6_format_for_time_series_eval :
    format_for_time_series pyStrptimeYear [[("value", PyVal.intV 1)]]
        "Project" "key" "value" false = Except.error PyError.keyError ∧
    format_for_time_series pyStrptimeYear
        [[("key", PyVal.strV "2020-01-01"), ("value", PyVal.intV 1)],
         [("key", PyVal.strV "not-a-date"), ("value", PyVal.intV 1)],
         [("key", PyVal.strV "2021-06-01"), ("value", PyVal.intV 1)]]
        "Project" "key" "value" false = Except.ok [(2020, 1), (2021, 1)] ∧
    format_for_time_series pyStrptimeYear
        [[("key", PyVal.strV "2015-05-05"), ("value", PyVal.intV 1)],
         [("key", PyVal.strV "2020-01-01"), ("value", PyVal.intV 1)]]
        "Project" "key" "value" true = Except.ok [(2020, 1)] :=
  ⟨rfl, rfl, rfl⟩

/-- The inner fold over one project's release ids adds, for each id, its
number of occurrences among the keys. -/
lemma cppr_inner_count (pr : ProjRef) :
    ∀ (keys : List String) (acc : (String → Nat) × (String → List ProjRef)) (rid : String),
      ((keys.foldl (fun a r => (cppr_inc a.1 r, cppr_addName a.2 r pr)) acc).1) rid =
        acc.1 rid + keys.count rid
  | [], acc, rid => by simp
  | k :: keys, acc, rid => by
    rw [List.foldl_cons, cppr_inner_count pr keys _ rid]
    by_cases hr : rid = k
    · subst hr
      simp [cppr_inc, List.count_cons]
      omega
    · have hbeq : (rid == k) = false := beq_eq_false_iff_ne.mpr hr
      simp [cppr_inc, hr, List.count_cons, hbeq]

/-- One `cppr_step` adds 1 to `release_project_count[rid]` exactly when the
project's (duplicate-free) `releaseIdToUsage` keys contain `rid`. -/
lemma cppr_step_count (p : ProjectDoc)
    (acc : (String → Nat) × (String → List ProjRef)) (rid : String)
    (hnd : ∀ ks, p.releaseIdToUsage = Option.some ks → ks.Nodup) :
    (cppr_step acc p).1 rid =
      acc.1 rid + (if rid ∈ p.releaseIdToUsage.getD [] then 1 else 0) := by
  cases hru : p.releaseIdToUsage with
  | none => simp [cppr_step, hru]
  | some ks =>
    cases hke : ks.isEmpty with
    | true =>
      have : ks = [] := List.isEmpty_iff.mp hke
      subst this
      simp [cppr_step, hru]
    | false =>
      simp only [cppr_step, hru, hke, Bool.false_eq_true, if_false]
      rw [cppr_inner_count _ ks acc rid]
      by_cases hm : rid ∈ ks
      · rw [List.count_eq_one_of_mem (hnd ks hru) hm]
        simp [hru, hm]
      · rw [List.count_eq_zero_of_not_mem hm]
        simp [hru, hm]

/-- Folding `cppr_step` counts, for each release id, the projects whose
keys contain it. -/
lemma cppr_foldl_count :
    ∀ (projects : List ProjectDoc) (acc : (String → Nat) × (String → List ProjRef))
      (rid : String),
      (∀ p ∈ projects, ∀ ks, p.releaseIdToUsage = Option.some ks → ks.Nodup) →
      ((projects.foldl cppr_step acc).1) rid =
        acc.1 rid +
          (projects.filter (fun p => decide (rid ∈ p.releaseIdToUsage.getD []))).length
  | [], acc, rid, _ => by simp
  | p :: rest, acc, rid, h => by
    rw [List.foldl_cons,
      cppr_foldl_count rest _ rid (fun q hq => h q (List.mem_cons_of_mem p hq)),
      cppr_step_count p acc rid (h p (List.mem_cons_self p rest)),
      List.filter_cons]
    by_cases hm : rid ∈ p.releaseIdToUsage.getD [] <;> simp [hm] <;> omega

/-- C8.  Each release's `project_count` equals the number of projects whose
`releaseIdToUsage` contains its id; and in the concrete scenario
(components `[C1, C2]`, releases `R1→C1, R2→C1, R3→CX` with `CX` absent
from the lookup, projects using `R1, R1, R2`) the pipeline reports the
components in order `C1, C2` with 2 and 0 releases, `C1`'s releases as
`(R1, 2), (R2, 1)`, `R3` orphaned and in no component's release list. -/
theorem C8_components_releases_projects_pipeline
    (projects : List ProjectDoc) (rid : String)
    (hnd : ∀ p ∈ projects, ∀ ks, p.releaseIdToUsage = Option.some ks → ks.Nodup) :
    (count_projects_per_release projects).1 rid =
      (projects.filter (fun p => decide (rid ∈ p.releaseIdToUsage.getD []))).length ∧
    (count_projects_per_release c8_projects).1 "R1" = 2 ∧
    (count_projects_per_release c8_projects).1 "R2" = 1 ∧
    c8_report.1.map (fun cd => cd.component_id) = ["C1", "C2"] ∧
    c8_report.1.map (fun cd => cd.total_releases) = [2, 0] ∧
    (c8_report.1.head?.map (fun cd =>
        cd.releases.map (fun rd => (rd.release_id, rd.project_count)))) =
      Option.some [("R1", 2), ("R2", 1)] ∧
    c8_report.2.map (fun r => r.id) = ["R3"] ∧
    c8_report.1.all (fun cd => cd.releases.all (fun rd => !(rd.release_id == "R3"))) =
      true := by
  refine ⟨?_, by decide, by decide, by decide, by decide, by decide, by decide, by decide⟩
  unfold count_projects_per_release
  rw [cppr_foldl_count projects _ rid hnd]
  simp

/-- Witness for C8 at the scenario projects and release `R1`. -/
theorem C8_components_releases_projects_pipeline_witness :
    (count_projects_per_release c8_projects).1 "R1" =
      (c8_projects.filter
        (fun p => decide ("R1" ∈ p.releaseIdToUsage.getD []))).length ∧
    (count_projects_per_release c8_projects).1 "R1" = 2 ∧
    (count_projects_per_release c8_projects).1 "R2" = 1 ∧
    c8_report.1.map (fun cd => cd.component_id) = ["C1", "C2"] ∧
    c8_report.1.map (fun cd => cd.total_releases) = [2, 0] ∧
    (c8_report.1.head?.map (fun cd =>
        cd.releases.map (fun rd => (rd.release_id, rd.project_count)))) =
      Option.some [("R1", 2), ("R2", 1)] ∧
    c8_report.2.map (fun r => r.id) = ["R3"] ∧
    c8_report.1.all (fun cd => cd.releases.all (fun rd => !(rd.release_id == "R3"))) =
      true :=
  C8_components_releases_projects_pipeline c8_projects "R1" (by decide)

/-- Unfolding lemma: counting over a cons. -/
lemma countOf_cons (k : GaugeKind) (ent : String) (x : GaugeSet) (l : List GaugeSet) :
    countOf k ent (x :: l) =
      countOf k ent l + (if x.kind = k ∧ x.entity = ent then 1 else 0) := by
  simp [countOf, List.countP_cons]

/-- Counting distributes over appended event logs. -/
lemma countOf_append (k : GaugeKind) (ent : String) (l₁ l₂ : List GaugeSet) :
    countOf k ent (l₁ ++ l₂) = countOf k ent l₁ + countOf k ent l₂ :=
  List.countP_append _ l₁ l₂

/-- Events gathered for a different entity never count. -/
lemma gatherEvents_count_ne_ent {k : GaugeKind} {ent e : String} (h : ent ≠ e) :
    ∀ l : List (GaugeKind × Option ℚ), countOf k ent (gatherEvents e l) = 0
  | [] => rfl
  | (k', v) :: rest => by
    cases v with
    | none =>
      rw [gatherEvents]
      exact gatherEvents_count_ne_ent h rest
    | some q =>
      rw [gatherEvents, countOf_cons, gatherEvents_count_ne_ent h rest]
      have hcond : ¬ ((k' : GaugeKind) = k ∧ e = ent) := fun hc => h hc.2.symm
      simp [hcond]

/-- Events gathered from entries whose gauges avoid `k` never count
towards `k`. -/
lemma gatherEvents_count_kind_not_mem {k : GaugeKind} {ent e : String} :
    ∀ l : List (GaugeKind × Option ℚ), k ∉ l.map Prod.fst →
      countOf k ent (gatherEvents e l) = 0
  | [], _ => rfl
  | (k', v) :: rest, h => by
    simp only [List.map_cons, List.mem_cons] at h
    push_neg at h
    cases v with
    | none =>
      rw [gatherEvents]
      exact gatherEvents_count_kind_not_mem rest h.2
    | some q =>
      rw [gatherEvents, countOf_cons, gatherEvents_count_kind_not_mem rest h.2]
      have hcond : ¬ ((k' : GaugeKind) = k ∧ e = ent) := fun hc => h.1 hc.1.symm
      simp [hcond]

/-- One `gatherEvents` batch sets each gauge at most once when its listed
gauges are distinct. -/
lemma gatherEvents_count_le_one {k : GaugeKind} {ent e : String} :
    ∀ l : List (GaugeKind × Option ℚ), (l.map Prod.fst).Nodup →
      countOf k ent (gatherEvents e l) ≤ 1
  | [], _ => by simp [gatherEvents, countOf]
  | (k', v) :: rest, h => by
    simp only [List.map_cons, List.nodup_cons] at h
    cases v with
    | none =>
      rw [gatherEvents]
      exact gatherEvents_count_le_one rest h.2
    | some q =>
      rw [gatherEvents, countOf_cons]
      by_cases hp : k' = k
      · rw [gatherEvents_count_kind_not_mem rest (hp ▸ h.1)]
        split <;> simp
      · have hrec := @gatherEvents_count_le_one k ent e rest h.2
        have hcond : ¬ ((k' : GaugeKind) = k ∧ e = ent) := fun hc => hp hc.1
        rw [if_neg hcond]
        omega

/-- The guarded-loop invariant: the number of times gauge `k` is set for
`ent` plus the `notSeen` measure never grows, provided each step emits at
most one `k`-event and only for its own key. -/
lemma guardedLoop_bound {α : Type} (key : α → String) (ev : α → List GaugeSet)
    (k : GaugeKind) (ent : String)
    (hle : ∀ a, countOf k ent (ev a) ≤ 1)
    (hne : ∀ a, ent ≠ key a → countOf k ent (ev a) = 0) :
    ∀ (l : List α) (p : List String) (e : List GaugeSet),
      countOf k ent (guardedLoop key ev l p e).2 +
          notSeen ent (guardedLoop key ev l p e).1 ≤
        countOf k ent e + notSeen ent p
  | [], p, e => le_refl _
  | a :: rest, p, e => by
    rw [guardedLoop]
    by_cases hm : key a ∈ p
    · rw [if_pos hm]
      exact guardedLoop_bound key ev k ent hle hne rest p e
    · rw [if_neg hm]
      refine le_trans (guardedLoop_bound key ev k ent hle hne rest (key a :: p) (e ++ ev a)) ?_
      rw [countOf_append]
      by_cases hent : ent = key a
      · have hm' : ent ∉ p := by rw [hent]; exact hm
        have h1 : notSeen ent (key a :: p) = 0 := by simp [notSeen, hent]
        have h2 : notSeen ent p = 1 := by simp [notSeen, hm']
        have h3 := hle a
        omega
      · have h0 : countOf k ent (ev a) = 0 := hne a hent
        have h1 : notSeen ent (key a :: p) = notSeen ent p := by
          simp [notSeen, List.mem_cons, hent]
        omega

/-- The extra-metrics batch holds only IOPS/read-ops/write-ops gauges. -/
lemma ebs_extra_events_count_zero {k : GaugeKind} {ent : String}
    (cw : String → String → String → String → Option ℚ) (v : VolInfo)
    (hk : k ≠ GaugeKind.volIops ∧ k ≠ GaugeKind.volReadOps ∧ k ≠ GaugeKind.volWriteOps) :
    countOf k ent (ebs_extra_events cw v) = 0 := by
  apply gatherEvents_count_kind_not_mem
  intro hmem
  simp only [List.map_cons, List.map_nil, List.mem_cons, List.not_mem_nil,
    or_false] at hmem
  rcases hmem with rfl | rfl | rfl
  · exact hk.1 rfl
  · exact hk.2.1 rfl
  · exact hk.2.2 rfl

/-- The unguarded extra-metrics loop leaves the counts of the four
size/usage gauges untouched. -/
lemma ebs_extra_loop_count {k : GaugeKind} {ent : String}
    (cw : String → String → String → String → Option ℚ)
    (hk : k ≠ GaugeKind.volIops ∧ k ≠ GaugeKind.volReadOps ∧ k ≠ GaugeKind.volWriteOps) :
    ∀ (vols : List VolInfo) (e : List GaugeSet),
      countOf k ent (ebs_extra_loop cw vols e) = countOf k ent e
  | [], e => rfl
  | v :: rest, e => by
    rw [ebs_extra_loop, ebs_extra_loop_count cw hk rest, countOf_append,
      ebs_extra_events_count_zero cw v hk]
    omega

/-- The EBS collection loop keeps the guarded-gauge invariant across
instances, fallback and enhanced branches alike. -/
lemma collect_ebs_bound (enhanced : String → List (String × DiskM))
    (volumes : String → List VolInfo)
    (cw : String → String → String → String → Option ℚ)
    (k : GaugeKind) (ent : String)
    (hk : k ≠ GaugeKind.volIops ∧ k ≠ GaugeKind.volReadOps ∧ k ≠ GaugeKind.volWriteOps) :
    ∀ (insts : List Ec2Instance) (p : List String) (e : List GaugeSet),
      countOf k ent (collect_ebs_loop enhanced volumes cw insts p e).2 +
          notSeen ent (collect_ebs_loop enhanced volumes cw insts p e).1 ≤
        countOf k ent e + notSeen ent p
  | [], p, e => le_refl _
  | inst :: rest, p, e => by
    rw [collect_ebs_loop]
    by_cases hdd : (enhanced inst.instanceId).isEmpty
    · simp only [hdd, if_true]
      refine le_trans (collect_ebs_bound enhanced volumes cw k ent hk rest _ _) ?_
      exact guardedLoop_bound (fun v => v.volumeId) ebs_basic_events k ent
        (fun v => gatherEvents_count_le_one _ (by
          show ([GaugeKind.volSize, GaugeKind.volUsed, GaugeKind.volFree,
            GaugeKind.volUtil] : List GaugeKind).Nodup
          decide))
        (fun v h => gatherEvents_count_ne_ent h _)
        (volumes inst.instanceId) p e
    · simp only [hdd, if_false]
      refine le_trans (collect_ebs_bound enhanced volumes cw k ent hk rest _ _) ?_
      rw [ebs_extra_loop_count cw hk]
      exact guardedLoop_bound (fun pr => pr.2.volume_id)
        (fun pr => ebs_enhanced_events pr.2) k ent
        (fun pr => gatherEvents_count_le_one _ (by
          show ([GaugeKind.volSize, GaugeKind.volUsed, GaugeKind.volFree,
            GaugeKind.volUtil] : List GaugeKind).Nodup
          decide))
        (fun pr h => gatherEvents_count_ne_ent h _)
        (enhanced inst.instanceId) p e

/-- C9 (amended).  The seen-ID sets do their job for the per-instance EC2
gauges and for the EBS size/used/free/utilization gauges: whatever the
input lists (duplicates included), each id has each of those gauges set at
most once per call.  (The additional IOPS/read/write loop is outside this
guarantee — see the counterexample.) -/
theorem C9_dedup_guards :
    (∀ (cw : String → String → String → String → Option ℚ)
        (instances : List Ec2Instance) (k : GaugeKind) (ent : String),
        (k = GaugeKind.cpu ∨ k = GaugeKind.mem ∨ k = GaugeKind.netIn ∨
            k = GaugeKind.netOut) →
        countOf k ent (collect_ec2_instance_metrics cw instances).2 ≤ 1) ∧
    (∀ (enhanced : String → List (String × DiskM)) (volumes : String → List VolInfo)
        (cw : String → String → String → String → Option ℚ)
        (instances : List Ec2Instance) (k : GaugeKind) (ent : String),
        (k = GaugeKind.volSize ∨ k = GaugeKind.volUsed ∨ k = GaugeKind.volFree ∨
            k = GaugeKind.volUtil) →
        countOf k ent (collect_ebs_volume_metrics enhanced volumes cw instances).2 ≤ 1) := by
  constructor
  · intro cw instances k ent hk
    have hbound := guardedLoop_bound (fun i => i.instanceId) (ec2_instance_events cw)
      k ent
      (fun i => gatherEvents_count_le_one _ (by
        show ([GaugeKind.cpu, GaugeKind.mem, GaugeKind.netIn,
          GaugeKind.netOut] : List GaugeKind).Nodup
        decide))
      (fun i h => gatherEvents_count_ne_ent h _)
      instances [] [⟨GaugeKind.runningInstances, "", (instances.length : ℚ)⟩]
    have hinit : countOf k ent [⟨GaugeKind.runningInstances, "", (instances.length : ℚ)⟩] = 0 := by
      rcases hk with rfl | rfl | rfl | rfl <;> simp [countOf_cons, countOf]
    rw [collect_ec2_instance_metrics]
    have hns : notSeen ent ([] : List String) = 1 := by simp [notSeen]
    omega
  · intro enhanced volumes cw instances k ent hk
    have hk' : k ≠ GaugeKind.volIops ∧ k ≠ GaugeKind.volReadOps ∧
        k ≠ GaugeKind.volWriteOps := by
      rcases hk with rfl | rfl | rfl | rfl <;> exact ⟨by decide, by decide, by decide⟩
    have hbound := collect_ebs_bound enhanced volumes cw k ent hk' instances [] []
    have hinit : countOf k ent ([] : List GaugeSet) = 0 := rfl
    have hns : notSeen ent ([] : List String) = 1 := by simp [notSeen]
    rw [collect_ebs_volume_metrics]
    omega

/-- C9, counterexample to the claim as stated: with instance `i-1` listed
twice, the additional EBS metrics loop — which does not consult
`processed_volumes` — sets the IOPS gauge for `vol-1` twice in one call. -/
theorem C9_duplicate_instance_double_iops :
    countOf GaugeKind.volIops "vol-1" c9_events = 2 ∧
      ¬ countOf GaugeKind.volIops "vol-1" c9_events ≤ 1 := by
  have h1 : countOf GaugeKind.volIops "vol-1" c9_events = 2 := by decide
  exact ⟨h1, by rw [h1]; omega⟩

end Sw360
